import Mathlib

/-!
Verification of the Pulse Atlas signal-ingestion pipeline.

This file shallowly embeds the parts of the repository that the verified
properties are about:

* `src/storage.py` — the v2 Dedup/Upsert layer (`init_db`'s partial unique
  index on `(source, url)` and the schema-tolerant `save_signal`);
* `src/decision_engine.py` — `action_for_signal` and the watermark batch
  loop of `main`;
* `src/score_signals.py` — `classify`, `norm_color`, `domain_score` and the
  scoring batch loop of `main`;
* `src/analyze_signal.py` — the keyword-count `classify`;
* `src/oii_snapshot.py` — the object-index aggregation of `main`;
* `src/fetch_bittensor_metrics.py` — the 10-minute time-windowed metrics
  dedup of `save_bittensor_metrics_sqlite`;
* `src/fetch_rss.py` — `insert_signal` (a plain `INSERT` with no
  conflict-ignore).

Modelling conventions, used throughout:
* SQLite TEXT/REAL/NULL column values are the inductive type `SqlVal`;
  Python dictionary values (which may be `None`) are `PyVal`, and a Python
  dict is an association list `Dict` (`row.get` is first-binding lookup).
* Python floats are modelled as exact rationals `ℚ`; the real-valued object
  index uses `ℝ` because the source takes a square root (`math.sqrt`).
* ISO-8601 UTC timestamp strings compare lexicographically in the same
  order as chronologically, so where the source compares timestamps the
  model uses `ℕ` timestamps with numeric order, and SQLite's
  `datetime('now','-10 minutes')` becomes `now - 600` (seconds).
* Python's `str.strip()`, `str.lower()` and substring tests are
  re-implemented structurally (`pyStrip`, `pyLower`, `strIn`) so that the
  kernel can evaluate them on concrete inputs.
-/

/-! ## Python string primitives -/

/-- One character of whitespace, as recognised by Python's `str.strip()`. -/
def isWS (c : Char) : Bool := c.isWhitespace

/-- Python `s.strip()`: drop leading and trailing whitespace. -/
def pyStrip (s : String) : String :=
  String.mk (((s.data.dropWhile isWS).reverse.dropWhile isWS).reverse)

/-- Python `s.lower()` (ASCII case folding, which is all the source needs). -/
def pyLower (s : String) : String := String.mk (s.data.map Char.toLower)

/-- Does the character list `n` occur at the head of `h`? -/
def headMatch : List Char → List Char → Bool
  | [], _ => true
  | _ :: _, [] => false
  | a :: as, b :: bs => a == b && headMatch as bs

/-- Does the character list `n` occur anywhere inside `h`? -/
def subAt : List Char → List Char → Bool
  | n, [] => headMatch n []
  | n, c :: hs => headMatch n (c :: hs) || subAt n hs

/-- Python `needle in hay` on strings: substring containment. -/
def strIn (needle hay : String) : Bool := subAt needle.data hay.data

/-! ## SQLite values and Python dict rows (src/storage.py) -/

/-- A value stored in (or bound to) a SQLite column: NULL, TEXT or REAL.
The `signals` schema of `init_db` only has TEXT and REAL columns. -/
inductive SqlVal where
  | null : SqlVal
  | text : String → SqlVal
  | real : ℚ → SqlVal
deriving DecidableEq

/-- A Python value held in the `row` dict passed to `save_signal`:
`None`, a string, or a float. -/
inductive PyVal where
  | pnone : PyVal
  | str : String → PyVal
  | num : ℚ → PyVal
deriving DecidableEq

/-- A Python dict, as an association list; lookups take the first binding. -/
def Dict := List (String × PyVal)

/-- Python `row.get(k)`, flattened: absent keys behave as `None`. -/
def dgetV (r : Dict) (k : String) : PyVal :=
  match List.lookup k r with
  | some v => v
  | none => PyVal.pnone

/-- Python `k in row` (key presence). -/
def dmem (r : Dict) (k : String) : Bool :=
  (List.lookup k r).isSome

/-- Python truthiness of a dict value (`None` and `""` and `0.0` are falsy). -/
def truthy : PyVal → Bool
  | PyVal.pnone => false
  | PyVal.str s => s ≠ ""
  | PyVal.num q => q ≠ 0

/-- Python `a or b`. -/
def pyOr (a b : PyVal) : PyVal := if truthy a then a else b

/-- Read a Python value as the string the source code treats it as.
The source only applies this at places where the value is a string. -/
def asS : PyVal → String
  | PyVal.pnone => "None"
  | PyVal.str s => s
  | PyVal.num q => toString q

/-- Convert a (non-absent) Python dict value to the SQLite value the
`sqlite3` binding stores for it. -/
def toSql : PyVal → SqlVal
  | PyVal.pnone => SqlVal.null
  | PyVal.str s => SqlVal.text s
  | PyVal.num q => SqlVal.real q

/-- A stored row of the `signals` table, with the column set of
`storage.init_db` (`id` autoincrement omitted; it never participates in
any property below).  NOT NULL columns: ts, source, text, score, color,
label. -/
structure StoredSig where
  ts : SqlVal
  source : SqlVal
  origin : SqlVal
  title : SqlVal
  text : SqlVal
  url : SqlVal
  tags : SqlVal
  score : SqlVal
  color : SqlVal
  label : SqlVal
  rationale : SqlVal
deriving DecidableEq

/-! ### `save_signal` (v2 patch, src/storage.py lines 113–209)

`save_signal` introspects `PRAGMA table_info(signals)` and runs two
generic loops (a defaults pass over keys absent from the dict, then a
NOT-NULL backfill pass over columns whose value is still `None`).  The
model instantiates those loops at the schema `init_db` declares — the
columns above, none of which carries a SQL DEFAULT, so the
`dflt.get(c) is not None` branch of the backfill loop is dead and the two
passes reduce to the per-column case analysis below. -/

/-- `base_ts`: `row.get("ts") or row.get("created_at") or datetime.now(...)`. -/
def baseTs (now : String) (r : Dict) : String :=
  asS (pyOr (dgetV r "ts") (pyOr (dgetV r "created_at") (PyVal.str now)))

/-- `base_source`: `(row.get("source") or "").strip()`, `"atlas"` if empty. -/
def baseSource (r : Dict) : String :=
  let s := pyStrip (asS (pyOr (dgetV r "source") (PyVal.str "")))
  if s = "" then "atlas" else s

/-- `base_label`: `row.get("label") or row.get("project") or base_source`. -/
def baseLabel (r : Dict) : String :=
  asS (pyOr (dgetV r "label") (pyOr (dgetV r "project") (PyVal.str (baseSource r))))

/-- `base_title`: `row.get("title") or base_label`. -/
def baseTitle (r : Dict) : String :=
  asS (pyOr (dgetV r "title") (PyVal.str (baseLabel r)))

/-- `base_text`: `row.get("text") or ""`. -/
def baseText (r : Dict) : String :=
  asS (pyOr (dgetV r "text") (PyVal.str ""))

/-- `base_url`: `row.get("url") or ""`. -/
def baseUrl (r : Dict) : String :=
  asS (pyOr (dgetV r "url") (PyVal.str ""))

/-- The row `save_signal` binds into its `INSERT OR IGNORE`, per column of
the `init_db` schema.  For each column: if the key is absent the defaults
pass supplies the documented default; if the key is present with `None`
the NOT-NULL backfill applies (for NOT NULL columns) or SQL NULL is bound
(for nullable ones); otherwise the caller's value is bound.  Columns
absent from the final dict (`tags`, `rationale` when not supplied) are not
in `insert_cols` and therefore store NULL. -/
def buildRow (now : String) (r : Dict) : StoredSig :=
  { ts :=
      match List.lookup "ts" r with
      | none => SqlVal.text (baseTs now r)
      | some PyVal.pnone => SqlVal.text (baseTs now r)
      | some v => toSql v
    source :=
      match List.lookup "source" r with
      | none => SqlVal.text (baseSource r)
      | some PyVal.pnone => SqlVal.text (baseSource r)
      | some v => toSql v
    origin :=
      match List.lookup "origin" r with
      | none => SqlVal.text (baseSource r)
      | some v => toSql v
    title :=
      match List.lookup "title" r with
      | none => SqlVal.text (baseTitle r)
      | some v => toSql v
    text :=
      match List.lookup "text" r with
      | none => SqlVal.text (baseText r)
      | some PyVal.pnone => SqlVal.text ""
      | some v => toSql v
    url :=
      match List.lookup "url" r with
      | none => SqlVal.text (baseUrl r)
      | some v => toSql v
    tags :=
      match List.lookup "tags" r with
      | none => SqlVal.null
      | some v => toSql v
    score :=
      match List.lookup "score" r with
      | none => SqlVal.real 0.35
      | some PyVal.pnone => SqlVal.real 0
      | some v => toSql v
    color :=
      match List.lookup "color" r with
      | none => toSql (pyOr (dgetV r "level") (PyVal.str "neutral"))
      | some PyVal.pnone => SqlVal.text ""
      | some v => toSql v
    label :=
      match List.lookup "label" r with
      | none => SqlVal.text (baseLabel r)
      | some PyVal.pnone => SqlVal.text (baseLabel r)
      | some v => toSql v
    rationale :=
      match List.lookup "rationale" r with
      | none => SqlVal.null
      | some v => toSql v }

/-- The predicate of `init_db`'s partial unique index
`idx_signals_source_url_unique`: the row is indexed when `source` and
`url` are both non-NULL and non-empty. -/
def keyed (s : StoredSig) : Bool :=
  decide (s.source ≠ SqlVal.null) && decide (s.source ≠ SqlVal.text "") &&
  decide (s.url ≠ SqlVal.null) && decide (s.url ≠ SqlVal.text "")

/-- Two rows collide on the partial unique index. -/
def sameKey (a b : StoredSig) : Bool :=
  keyed a && keyed b && decide (a.source = b.source) && decide (a.url = b.url)

/-- `INSERT OR IGNORE` against the partial unique index: inserting `row`
into `table` conflicts iff some stored row collides with it. -/
def uniqueConflict (table : List StoredSig) (row : StoredSig) : Bool :=
  table.any (fun s => sameKey s row)

/-- `save_signal(row)` (v2): build the full row, `INSERT OR IGNORE`, commit;
returns the new table and `1` if inserted, `0` if ignored. -/
def save_signal (table : List StoredSig) (now : String) (r : Dict) :
    List StoredSig × ℕ :=
  let row := buildRow now r
  if uniqueConflict table row then (table, 0) else (table ++ [row], 1)

/-! ### Helper lemmas about `buildRow` -/

/-- The stored `source` column does not depend on the wall-clock time
(`datetime.now` only feeds `ts`). -/
theorem buildRow_source_time_indep (now1 now2 : String) (r : Dict) :
    (buildRow now1 r).source = (buildRow now2 r).source := rfl

/-- The stored `url` column does not depend on the wall-clock time. -/
theorem buildRow_url_time_indep (now1 now2 : String) (r : Dict) :
    (buildRow now1 r).url = (buildRow now2 r).url := rfl

/-- `keyed` only reads `source` and `url`, so it is time-independent too. -/
theorem keyed_buildRow_time_indep (now1 now2 : String) (r : Dict) :
    keyed (buildRow now1 r) = keyed (buildRow now2 r) := rfl

/-- Two builds of the same candidate dict collide on the unique index
whenever the candidate's key is non-empty. -/
theorem sameKey_buildRow_self (now1 now2 : String) (r : Dict)
    (hk : keyed (buildRow now1 r) = true) :
    sameKey (buildRow now1 r) (buildRow now2 r) = true := by
  unfold sameKey
  rw [← keyed_buildRow_time_indep now1 now2 r,
    ← buildRow_source_time_indep now1 now2 r,
    ← buildRow_url_time_indep now1 now2 r]
  simp [hk]

/-- C1: calling `save_signal` twice with the same non-empty `(source, url)`
candidate inserts once (returns 1), then no-ops (returns 0), leaving
exactly one stored row with that dedup key. -/
theorem save_signal_dedup_once (t : List StoredSig) (r : Dict) (now1 now2 : String)
    (hk : keyed (buildRow now1 r) = true)
    (hnew : uniqueConflict t (buildRow now1 r) = false) :
    save_signal t now1 r = (t ++ [buildRow now1 r], 1) ∧
    save_signal (t ++ [buildRow now1 r]) now2 r = (t ++ [buildRow now1 r], 0) ∧
    ((t ++ [buildRow now1 r]).filter
      (fun s => sameKey s (buildRow now1 r))).length = 1 := by
  have hself : sameKey (buildRow now1 r) (buildRow now1 r) = true := by
    unfold sameKey
    simp [hk]
  have hconf : uniqueConflict (t ++ [buildRow now1 r]) (buildRow now2 r) = true := by
    unfold uniqueConflict
    rw [List.any_append]
    simp [sameKey_buildRow_self now1 now2 r hk]
  have hnil : t.filter (fun s => sameKey s (buildRow now1 r)) = [] := by
    rw [List.filter_eq_nil_iff]
    intro s hs
    have := List.any_eq_false.mp (by simpa [uniqueConflict] using hnew) s hs
    simpa using this
  refine ⟨by simp [save_signal, hnew], by simp [save_signal, hconf], ?_⟩
  rw [List.filter_append, hnil]
  simp [hself]

/-- The end-to-end scenario-A candidate of the spec. -/
def scenarioARow : Dict :=
  [("source", PyVal.str "akash/github"),
   ("url", PyVal.str "https://x/releases/v1"),
   ("title", PyVal.str "v1.0.0"),
   ("text", PyVal.str "release notes")]

/-- Witness for C1 at the spec's scenario-A candidate on an empty table. -/
theorem save_signal_dedup_once_witness :
    keyed (buildRow "2026-01-01T00:00:00+00:00" scenarioARow) = true ∧
    uniqueConflict [] (buildRow "2026-01-01T00:00:00+00:00" scenarioARow) = false ∧
    (save_signal [] "2026-01-01T00:00:00+00:00" scenarioARow =
        ([] ++ [buildRow "2026-01-01T00:00:00+00:00" scenarioARow], 1) ∧
      save_signal ([] ++ [buildRow "2026-01-01T00:00:00+00:00" scenarioARow])
          "2026-01-02T09:30:00+00:00" scenarioARow =
        ([] ++ [buildRow "2026-01-01T00:00:00+00:00" scenarioARow], 0) ∧
      (([] ++ [buildRow "2026-01-01T00:00:00+00:00" scenarioARow]).filter
        (fun s => sameKey s (buildRow "2026-01-01T00:00:00+00:00" scenarioARow))).length = 1) :=
  ⟨by decide, by decide,
    save_signal_dedup_once [] scenarioARow
      "2026-01-01T00:00:00+00:00" "2026-01-02T09:30:00+00:00"
      (by decide) (by decide)⟩

/-- C2: whatever partial dict the caller supplies (even only
`{source, url}`), the row `save_signal` inserts populates every NOT NULL
column of the `signals` schema — ts, source, text, score, color, label —
so the insert cannot hit a NOT-NULL constraint violation. -/
theorem save_signal_fills_not_null (now : String) (r : Dict) :
    (buildRow now r).ts ≠ SqlVal.null ∧
    (buildRow now r).source ≠ SqlVal.null ∧
    (buildRow now r).text ≠ SqlVal.null ∧
    (buildRow now r).score ≠ SqlVal.null ∧
    (buildRow now r).color ≠ SqlVal.null ∧
    (buildRow now r).label ≠ SqlVal.null := by
  refine ⟨?_, ?_, ?_, ?_, ?_, ?_⟩
  · cases h : List.lookup "ts" r with
    | none => simp [buildRow, h]
    | some v => cases v <;> simp [buildRow, h, toSql]
  · cases h : List.lookup "source" r with
    | none => simp [buildRow, h]
    | some v => cases v <;> simp [buildRow, h, toSql]
  · cases h : List.lookup "text" r with
    | none => simp [buildRow, h]
    | some v => cases v <;> simp [buildRow, h, toSql]
  · cases h : List.lookup "score" r with
    | none => simp [buildRow, h]
    | some v => cases v <;> simp [buildRow, h, toSql]
  · cases h : List.lookup "color" r with
    | none =>
      cases hl : dgetV r "level" with
      | pnone => simp [buildRow, h, hl, pyOr, truthy, toSql]
      | str a =>
        by_cases ha : a = "" <;> simp [buildRow, h, hl, pyOr, truthy, toSql, ha]
      | num q =>
        by_cases hq : q = 0 <;> simp [buildRow, h, hl, pyOr, truthy, toSql, hq]
    | some v => cases v <;> simp [buildRow, h, toSql]
  · cases h : List.lookup "label" r with
    | none => simp [buildRow, h]
    | some v => cases v <;> simp [buildRow, h, toSql]

/-! ## Decision Engine (src/decision_engine.py) -/

/-- Python `x or d` for an optional string (None and `""` both fall through). -/
def pyOrS (o : Option String) (d : String) : String :=
  match o with
  | some s => if s = "" then d else s
  | none => d

/-- A row of the engine's signal query
`SELECT id, ts, source, url, title, score, color FROM signals`.
`score` is NOT NULL (REAL); the text columns other than `id` are nullable. -/
structure EngSig where
  id : ℕ
  ts : Option String
  source : Option String
  url : Option String
  title : Option String
  score : ℚ
  color : Option String
deriving DecidableEq

/-- The dict `action_for_signal` returns.  Its `payload` sub-dict
`{"source", "color", "score", "ts"}` is flattened into the `pay_*` fields
(the engine later serialises it to JSON text, which the model keeps
structured). -/
structure ActionCand where
  signal_id : ℕ
  action_type : String
  priority : ℕ
  title : String
  url : String
  pay_source : Option String
  pay_color : String
  pay_score : ℚ
  pay_ts : Option String
deriving DecidableEq

/-- `action_for_signal`: red → investigate/90, yellow → monitor/50,
anything else → no action. -/
def action_for_signal (row : EngSig) : Option ActionCand :=
  let c := pyStrip (row.color.getD "")
  if c = "🔴" then
    some ⟨row.id, "investigate", 90, pyOrS row.title "red signal",
      row.url.getD "", row.source, c, row.score, row.ts⟩
  else if c = "🟡" then
    some ⟨row.id, "monitor", 50, pyOrS row.title "yellow signal",
      row.url.getD "", row.source, c, row.score, row.ts⟩
  else none

/-- `norm_color` from src/score_signals.py (the `or ""` of the source only
matters for a Python `None` argument, which its caller never passes). -/
def norm_color (c : String) : String :=
  let c := pyStrip c
  if c = "🟢" ∨ c = "green" then "🟢"
  else if c = "🟡" ∨ c = "yellow" ∨ c = "⚪" ∨ c = "white" then "🟡"
  else if c = "🔴" ∨ c = "red" then "🔴"
  else "⚫"

/-- `norm_color` produces an already-stripped emoji, so the engine's
`(color or "").strip()` leaves it unchanged. -/
theorem pyStrip_norm_color (c : String) : pyStrip (norm_color c) = norm_color c := by
  simp only [norm_color]
  split_ifs <;> decide

/-- `dedup_key` from src/decision_engine.py (its `url or ""` is the
identity on the string its caller passes). -/
def dedup_key (action_type : String) (signal_id : ℕ) (url : String) : String :=
  action_type ++ ":" ++ toString signal_id ++ ":" ++ url

/-- The investigate action `action_for_signal` emits for a red row. -/
def investigateFor (row : EngSig) : ActionCand :=
  ⟨row.id, "investigate", 90, pyOrS row.title "red signal",
    row.url.getD "", row.source, "🔴", row.score, row.ts⟩

/-- The monitor action `action_for_signal` emits for a yellow row. -/
def monitorFor (row : EngSig) : ActionCand :=
  ⟨row.id, "monitor", 50, pyOrS row.title "yellow signal",
    row.url.getD "", row.source, "🟡", row.score, row.ts⟩

/-- C3: for a signal row whose stored color is a normalised color, the
Decision Engine emits exactly one investigate action with priority 90 when
the color is red, exactly one monitor action with priority 50 when it is
yellow, and no action when it is green or any other color. -/
theorem decision_rule_red_yellow_green (row : EngSig) (c : String)
    (hc : row.color = some (norm_color c)) :
    (norm_color c = "🔴" → action_for_signal row = some (investigateFor row)) ∧
    (norm_color c = "🟡" → action_for_signal row = some (monitorFor row)) ∧
    (norm_color c = "🟢" ∨ norm_color c = "⚫" → action_for_signal row = none) := by
  have hs : pyStrip (row.color.getD "") = norm_color c := by
    rw [hc]
    exact pyStrip_norm_color c
  refine ⟨fun h => ?_, fun h => ?_, fun h => ?_⟩
  · simp only [action_for_signal, hs, h, investigateFor]
    simp
  · simp only [action_for_signal, hs, h, monitorFor]
    simp
  · rcases h with h | h <;> simp only [action_for_signal, hs, h] <;> simp

/-- Concrete red row for the C3 witness (color as stored by the scorer). -/
def redRow : EngSig :=
  ⟨7, some "2026-01-01T00:00:00+00:00", some "rss", some "https://x/a",
    some "Big hack", 0.85, some (norm_color "red")⟩

/-- Witness for C3: a red signal yields the investigate/90 action. -/
theorem decision_rule_red_yellow_green_witness :
    norm_color "red" = "🔴" ∧
    action_for_signal redRow = some (investigateFor redRow) :=
  ⟨by decide, (decision_rule_red_yellow_green redRow "red" rfl).1 (by decide)⟩

/-! ### The engine batch loop (src/decision_engine.py `main`)

The `actions` and `engine_state` tables are created outside src/ (only
their readers and writers appear there); their shapes are modelled from
the spec: `actions.dedup_key` carries a unique index (spec: "dedup key …
is globally unique"), and `engine_state` is a key/value table of which the
engine uses the single key `engine:last_id`, kept here as an optional
natural (TEXT round-trip through `str`/`int` abstracted). -/

/-- A stored row of the `actions` table. -/
structure EngAction where
  ts : String
  signal_id : ℕ
  action_type : String
  priority : ℕ
  title : String
  url : String
  pay_source : Option String
  pay_color : String
  pay_score : ℚ
  pay_ts : Option String
  status : String
  dk : String
deriving DecidableEq

/-- The row the engine binds into `INSERT INTO actions(...)`. -/
def mkEngAction (now : String) (a : ActionCand) : EngAction :=
  ⟨now, a.signal_id, a.action_type, a.priority, a.title, a.url,
    a.pay_source, a.pay_color, a.pay_score, a.pay_ts, "open",
    dedup_key a.action_type a.signal_id a.url⟩

/-- The `try: INSERT INTO actions ... except sqlite3.IntegrityError: pass`
block: a plain insert against the unique `dedup_key` index whose conflict
is swallowed, returning the table and 1 if inserted, 0 on a dedup hit. -/
def insertAction (now : String) (acts : List EngAction) (a : ActionCand) :
    List EngAction × ℕ :=
  let dkv := dedup_key a.action_type a.signal_id a.url
  if acts.any (fun e => e.dk == dkv) then (acts, 0)
  else (acts ++ [mkEngAction now a], 1)

/-- One iteration of the engine's `for row in rows` loop, carrying
`(actions table, max_id, inserted)`. -/
def engStep (now : String) (st : List EngAction × ℕ × ℕ) (row : EngSig) :
    List EngAction × ℕ × ℕ :=
  let maxId := if row.id > st.2.1 then row.id else st.2.1
  match action_for_signal row with
  | none => (st.1, maxId, st.2.2)
  | some a =>
    let ins := insertAction now st.1 a
    (ins.1, maxId, st.2.2 + ins.2)

/-- The database state the engine touches. -/
structure EngState where
  signals : List EngSig
  actions : List EngAction
  lastId : Option ℕ
deriving DecidableEq

/-- `main`: read the watermark (default 0), select signals with strictly
greater id in ascending id order (the `signals` list is kept in ascending
`id` order, as AUTOINCREMENT insertion produces), fold the loop, store the
new watermark, and report `(processed, inserted)`. -/
def runEngine (now : String) (st : EngState) : EngState × ℕ × ℕ :=
  let last := st.lastId.getD 0
  let rows := st.signals.filter (fun s => decide (last < s.id))
  let res := rows.foldl (engStep now) (st.actions, last, 0)
  ({ st with actions := res.1, lastId := some res.2.1 }, rows.length, res.2.2)

/-- The running `max_id` of the engine loop never decreases. -/
theorem engStep_max_le (now : String) (rows : List EngSig)
    (acts : List EngAction) (m i : ℕ) :
    m ≤ (rows.foldl (engStep now) (acts, m, i)).2.1 := by
  induction rows generalizing acts m i with
  | nil => simp
  | cons r rs ih =>
    rw [List.foldl_cons]
    have step : m ≤ (engStep now (acts, m, i) r).2.1 := by
      unfold engStep
      cases action_for_signal r <;> simp <;> split <;> omega
    calc m ≤ (engStep now (acts, m, i) r).2.1 := step
      _ ≤ _ := by
        obtain ⟨a, b, c⟩ := engStep now (acts, m, i) r
        exact ih a b c

/-- Every processed row's id is dominated by the final `max_id`. -/
theorem engStep_max_dominates (now : String) (rows : List EngSig)
    (acts : List EngAction) (m i : ℕ) (s : EngSig) (hs : s ∈ rows) :
    s.id ≤ (rows.foldl (engStep now) (acts, m, i)).2.1 := by
  induction rows generalizing acts m i with
  | nil => cases hs
  | cons r rs ih =>
    rw [List.foldl_cons]
    rcases List.mem_cons.mp hs with h | h
    · subst h
      have step : s.id ≤ (engStep now (acts, m, i) s).2.1 := by
        unfold engStep
        cases action_for_signal s <;> simp <;> split <;> omega
      calc s.id ≤ (engStep now (acts, m, i) s).2.1 := step
        _ ≤ _ := by
          obtain ⟨a, b, c⟩ := engStep now (acts, m, i) s
          exact engStep_max_le now rs a b c
    · obtain ⟨a, b, c⟩ := engStep now (acts, m, i) r
      exact ih a b c h

/-- After a run, the stored watermark dominates every signal id present. -/
theorem runEngine_lastId_dominates (now : String) (st : EngState)
    (s : EngSig) (hs : s ∈ st.signals) :
    s.id ≤ ((runEngine now st).1.lastId.getD 0) := by
  simp only [runEngine, Option.getD_some]
  by_cases h : st.lastId.getD 0 < s.id
  · have hmem : s ∈ st.signals.filter (fun x => decide (st.lastId.getD 0 < x.id)) :=
      List.mem_filter.mpr ⟨hs, by simpa using h⟩
    exact engStep_max_dominates now _ st.actions _ 0 s hmem
  · exact le_trans (Nat.le_of_not_lt h) (engStep_max_le now _ st.actions _ 0)

/-- C4: re-running the engine after a completed run, with no new signals,
selects nothing, inserts zero actions and leaves the state unchanged; the
watermark after run N dominates every signal id observed. -/
theorem engine_rerun_noop (now1 now2 : String) (st : EngState) :
    runEngine now2 (runEngine now1 st).1 = ((runEngine now1 st).1, 0, 0) ∧
    ∀ s ∈ st.signals, s.id ≤ ((runEngine now1 st).1.lastId.getD 0) := by
  refine ⟨?_, fun s hs => runEngine_lastId_dominates now1 st s hs⟩
  have hsome : (runEngine now1 st).1.lastId =
      some ((runEngine now1 st).1.lastId.getD 0) := rfl
  have hsig : (runEngine now1 st).1.signals = st.signals := rfl
  have hfil : (runEngine now1 st).1.signals.filter
      (fun x => decide ((runEngine now1 st).1.lastId.getD 0 < x.id)) = [] := by
    rw [List.filter_eq_nil_iff]
    intro s hs
    rw [hsig] at hs
    simpa using Nat.not_lt.mpr (runEngine_lastId_dominates now1 st s hs)
  conv_lhs => rw [runEngine]
  rw [hfil, List.foldl_nil]
  generalize hst : (runEngine now1 st).1 = st1 at hsome ⊢
  obtain ⟨sg1, ac1, li1⟩ := st1
  simp only at hsome ⊢
  rw [← hsome]
  simp

/-- Concrete one-signal state for the C4 witness. -/
def wSig : EngSig :=
  ⟨1, some "2026-01-01T00:00:00+00:00", some "rss", some "https://x/a",
    some "T", 0.5, some "🔴"⟩

/-- Concrete engine state for the C4 witness (fresh watermark). -/
def wState : EngState := ⟨[wSig], [], none⟩

/-- Witness for C4 on a one-signal database with no prior watermark. -/
theorem engine_rerun_noop_witness :
    runEngine "2026-01-02T00:00:00+00:00" (runEngine "2026-01-01T00:00:00+00:00" wState).1 =
      ((runEngine "2026-01-01T00:00:00+00:00" wState).1, 0, 0) ∧
    wSig.id ≤ ((runEngine "2026-01-01T00:00:00+00:00" wState).1.lastId.getD 0) :=
  ⟨(engine_rerun_noop "2026-01-01T00:00:00+00:00" "2026-01-02T00:00:00+00:00" wState).1,
   (engine_rerun_noop "2026-01-01T00:00:00+00:00" "2026-01-02T00:00:00+00:00" wState).2
     wSig (List.mem_cons_self wSig [])⟩

/-- C10: a run never moves the stored watermark `engine:last_id` backwards
(`max_id` starts from the previous watermark), even when no signal
qualifies. -/
theorem engine_watermark_monotone (now : String) (st : EngState) :
    st.lastId.getD 0 ≤ ((runEngine now st).1.lastId.getD 0) := by
  simp only [runEngine, Option.getD_some]
  exact engStep_max_le now _ st.actions _ 0

/-! ## Scoring Engine (src/score_signals.py) -/

namespace ScoreSignals

/-- `KEYWORDS_RED` (src/score_signals.py). -/
def KEYWORDS_RED : List String :=
  ["ban","banned","regulation","regulator","sec","fine","lawsuit","court","sanction",
   "breach","leak","hack","ransom","exploit","vulnerability","cve","critical",
   "surveillance","blocked","shutdown","arrest","fraud","scam","malware"]

/-- `KEYWORDS_GREEN`. -/
def KEYWORDS_GREEN : List String :=
  ["release","launched","introducing","announcing","open source","benchmark","paper",
   "improves","performance","funding","partnership","integration","upgrade","stable",
   "tool","sdk","api","security fix","patch","mitigation"]

/-- `KEYWORDS_YELLOW`. -/
def KEYWORDS_YELLOW : List String :=
  ["rumor","report","preview","beta","maybe","analysis","opinion","thoughts","discussion"]

/-- `HIGH_SIGNAL_DOMAINS` (a dict; lookup order is insertion order). -/
def HIGH_SIGNAL_DOMAINS : List (String × ℚ) :=
  [("openai.com", 0.78), ("blog.cloudflare.com", 0.72), ("arstechnica.com", 0.65),
   ("theverge.com", 0.58), ("schneier.com", 0.70), ("github.com", 0.62),
   ("lwn.net", 0.68)]

/-- `norm_text(*parts)`: strip each part, drop falsy ones, join with a
space, lowercase. -/
def norm_text (parts : List String) : String :=
  pyLower (String.intercalate " "
    ((parts.filter (fun p => decide (p ≠ "") && decide (pyStrip p ≠ ""))).map pyStrip))

/-- Drop `pat` from the head of `l` if it is there. -/
def dropPre : List Char → List Char → Option (List Char)
  | [], l => some l
  | _ :: _, [] => none
  | a :: as, b :: bs => if a == b then dropPre as bs else none

/-- The suffix of `l` after the first occurrence of `pat`, if any. -/
def findAfter (pat : List Char) : List Char → Option (List Char)
  | [] => dropPre pat []
  | c :: t =>
    match dropPre pat (c :: t) with
    | some r => some r
    | none => findAfter pat t

/-- `urlparse(url).netloc` for the `scheme://host/...` URLs the pipeline
stores: the text between `://` and the next delimiter (empty when the URL
has no scheme part, as `urlparse` then yields no netloc). -/
def netlocOf (url : String) : String :=
  match findAfter ("://".data) url.data with
  | none => ""
  | some rest => String.mk (rest.takeWhile (fun c => c != '/' && c != '?' && c != '#'))

/-- Does `hay` end with `suf` (Python `str.endswith`)? -/
def endsWithStr (hay suf : String) : Bool :=
  headMatch suf.data.reverse hay.data.reverse

/-- The `for d, sc in HIGH_SIGNAL_DOMAINS.items()` lookup loop. -/
def domLoop : List (String × ℚ) → String → ℚ
  | [], _ => 0.45
  | (d, sc) :: rest, host =>
    if host == d || endsWithStr host ("." ++ d) then sc else domLoop rest host

/-- `domain_score(url)`: reputation prior of the URL's host.  The
`except: return 0.40` guard of the source is unreachable here because the
model's parsing is total. -/
def domain_score (url : String) : ℚ :=
  let host0 := pyLower (netlocOf url)
  let host := if headMatch ("www.".data) host0.data then String.mk (host0.data.drop 4)
    else host0
  domLoop HIGH_SIGNAL_DOMAINS host

/-- `classify(text)`: keyword-presence rule returning
`(keyword score, color word, label)`. -/
def classify (text : String) : ℚ × String × String :=
  let t := pyLower text
  let hit_red := KEYWORDS_RED.any (fun k => strIn k t)
  let hit_green := KEYWORDS_GREEN.any (fun k => strIn k t)
  let hit_yellow := KEYWORDS_YELLOW.any (fun k => strIn k t)
  if hit_red && !hit_green then (0.72, "red", "risk/pressure")
  else if hit_green && !hit_red then (0.66, "green", "progress")
  else if hit_red && hit_green then (0.60, "yellow", "mixed")
  else if hit_yellow then (0.52, "yellow", "watch")
  else (0.48, "yellow", "neutral")

/-- `clamp(x)`. -/
def clamp (x : ℚ) : ℚ := max 0 (min 1 x)

/-- Python `f"{score:.2f}"` on a clamped (non-negative) score, with ℚ
round-to-nearest standing in for the float formatter's rounding. -/
def fmt2 (q : ℚ) : String :=
  let n : ℤ := round (q * 100)
  let f : ℤ := n % 100
  toString (n / 100) ++ "." ++ (if f < 10 then "0" else "") ++ toString f

/-- A row of the scorer's query
`SELECT id, source, title, text, summary, url, raw FROM signals` together
with the columns its UPDATE writes.  The live table carries `summary` and
`raw` columns beyond the `init_db` set (the schema is evolving); `color`
and `label` are NOT NULL. -/
structure ScRow where
  id : ℕ
  source : Option String
  title : Option String
  text : Option String
  summary : Option String
  url : Option String
  raw : Option String
  score : ℚ
  color : String
  label : String
  rationale : Option String
deriving DecidableEq

/-- `rationale IS NULL OR rationale = ''`. -/
def emptyRationale (r : ScRow) : Bool :=
  match r.rationale with
  | none => true
  | some s => s == ""

/-- The `(score, color, label, rationale)` the loop body computes from a
selected row (`f"{source}"` prints a SQL NULL as `None`). -/
def scoredVals (now : String) (r : ScRow) : ℚ × String × String × String :=
  let blob := norm_text [r.title.getD "", r.text.getD "", r.summary.getD ""]
  let base := domain_score (r.url.getD "")
  let k := classify blob
  let color := norm_color k.2.1
  let label := k.2.2
  let score := clamp (0.5 * base + 0.5 * k.1)
  (score, color, label,
    label ++ "; score=" ++ fmt2 score ++ "; source=" ++ r.source.getD "None" ++
      "; t=" ++ now)

/-- The UPDATE: overwrite score/color/label/rationale of every row whose
id matches the selected row `r`, keeping its other columns. -/
def applyScore (now : String) (r s : ScRow) : ScRow :=
  let v := scoredVals now r
  { s with
      score := v.1
      color := v.2.1
      label := v.2.2.1
      rationale := some v.2.2.2 }

/-- One UPDATE statement over the whole table. -/
def updStep (now : String) (tbl : List ScRow) (r : ScRow) : List ScRow :=
  tbl.map (fun s => if s.id == r.id then applyScore now r s else s)

/-- `main(limit)`: select the rows with empty rationale, newest-first
(the table list is kept in ascending-id insertion order, so `ORDER BY id
DESC` is its reverse), bounded by `LIMIT`, and run the update loop. -/
def runScore (now : String) (limit : ℕ) (table : List ScRow) : List ScRow :=
  let rows := ((table.filter emptyRationale).reverse).take limit
  rows.foldl (updStep now) table

end ScoreSignals

namespace ScoreSignals

/-- An UPDATE keyed on one id preserves every row's id. -/
theorem updStep_map_id (now : String) (tbl : List ScRow) (r : ScRow) :
    (updStep now tbl r).map ScRow.id = tbl.map ScRow.id := by
  unfold updStep
  rw [List.map_map]
  exact List.map_congr_left (fun s _ => by
    by_cases h : (s.id == r.id) <;> simp [Function.comp, h, applyScore])

/-- The whole update loop preserves the table's id column. -/
theorem foldl_updStep_map_id (now : String) (sel : List ScRow) (acc : List ScRow) :
    ((sel.foldl (updStep now) acc).map ScRow.id) = acc.map ScRow.id := by
  induction sel generalizing acc with
  | nil => rfl
  | cons q qs ih => rw [List.foldl_cons, ih, updStep_map_id]

/-- A row whose id matches no selected row passes through the loop intact. -/
theorem mem_foldl_updStep (now : String) (sel : List ScRow) (r : ScRow)
    (acc : List ScRow) (h : ∀ q ∈ sel, q.id ≠ r.id) (hm : r ∈ acc) :
    r ∈ sel.foldl (updStep now) acc := by
  induction sel generalizing acc with
  | nil => exact hm
  | cons q qs ih =>
    rw [List.foldl_cons]
    refine ih _ (fun p hp => h p (List.mem_cons_of_mem q hp)) ?_
    have hne : (r.id == q.id) = false := by
      simpa using fun he => h q (List.mem_cons_self q qs) he.symm
    exact List.mem_map.mpr ⟨r, hm, by simp [hne]⟩

end ScoreSignals

/-- C5: the Scoring Engine only targets rows whose rationale is NULL or
empty, so a row that already carries a non-empty rationale survives any
re-run unchanged (same full row, including score, color and label), and
the run never adds or removes rows. -/
theorem scoring_idempotent_on_scored (now : String) (limit : ℕ)
    (table : List ScoreSignals.ScRow) (r : ScoreSignals.ScRow)
    (hnd : (table.map ScoreSignals.ScRow.id).Nodup)
    (hmem : r ∈ table)
    (hr : ScoreSignals.emptyRationale r = false) :
    r ∈ ScoreSignals.runScore now limit table ∧
    (ScoreSignals.runScore now limit table).map ScoreSignals.ScRow.id =
      table.map ScoreSignals.ScRow.id := by
  have hsel : ∀ q ∈ ((table.filter ScoreSignals.emptyRationale).reverse).take limit,
      q.id ≠ r.id := by
    intro q hq hid
    have hq2 : q ∈ table.filter ScoreSignals.emptyRationale :=
      List.mem_reverse.mp (List.mem_of_mem_take hq)
    have hq4 : ScoreSignals.emptyRationale q = true := List.of_mem_filter hq2
    have heq : q = r :=
      List.inj_on_of_nodup_map hnd (List.mem_of_mem_filter hq2) hmem hid
    rw [heq, hr] at hq4
    exact Bool.noConfusion hq4
  exact ⟨ScoreSignals.mem_foldl_updStep now _ r table hsel hmem,
    ScoreSignals.foldl_updStep_map_id now _ table⟩

/-- Concrete already-scored row for the C5 witness. -/
def scRow1 : ScoreSignals.ScRow :=
  ⟨1, some "rss", some "T", some "body text", none, some "https://x", none,
    0.5, "🔴", "risk", some "done"⟩

/-- Witness for C5 on a one-row table whose row is already scored. -/
theorem scoring_idempotent_on_scored_witness :
    scRow1 ∈ ScoreSignals.runScore "2026-01-01T00:00:00+00:00" 200 [scRow1] ∧
    (ScoreSignals.runScore "2026-01-01T00:00:00+00:00" 200 [scRow1]).map
        ScoreSignals.ScRow.id = [scRow1].map ScoreSignals.ScRow.id :=
  scoring_idempotent_on_scored "2026-01-01T00:00:00+00:00" 200 [scRow1] scRow1
    (by decide) (List.mem_cons_self scRow1 []) (by decide)

/-! ## Keyword classifier (src/analyze_signal.py) -/

namespace AnalyzeSignal

/-- `RISK_WORDS` (a Python set; only membership counts matter). -/
def RISK_WORDS : List String :=
  ["hack", "hacked", "exploit", "breach", "leak", "malware", "ransom",
   "scam", "fraud", "lawsuit", "sec", "investigation", "ban",
   "panic", "crash", "attack", "vulnerability", "critical"]

/-- `HYPE_WORDS`. -/
def HYPE_WORDS : List String :=
  ["launch", "released", "partnership", "upgrade", "milestone",
   "record", "surge", "breakthrough", "wins", "adoption"]

/-- `sum(1 for w in RISK_WORDS if w in t)` over the lowered
`f"{title}\n{text}"`. -/
def riskHits (title text : String) : ℕ :=
  RISK_WORDS.countP (fun w => strIn w (pyLower (title ++ "\n" ++ text)))

/-- `sum(1 for w in HYPE_WORDS if w in t)`. -/
def hypeHits (title text : String) : ℕ :=
  HYPE_WORDS.countP (fun w => strIn w (pyLower (title ++ "\n" ++ text)))

/-- `classify(title, text)`: returns `(score, label, color, rationale)`. -/
def classify (title text : String) : ℚ × String × String × String :=
  let risk_hits := riskHits title text
  let hype_hits := hypeHits title text
  if risk_hits ≥ 1 ∧ risk_hits ≥ hype_hits then
    (0.85, "risk", "🔴", "rule:risk hits=" ++ toString risk_hits)
  else if hype_hits ≥ 2 ∧ hype_hits > risk_hits then
    (0.70, "hype", "🟢", "rule:hype hits=" ++ toString hype_hits)
  else (0.35, "neutral", "⚪", "rule:neutral")

end AnalyzeSignal

/-- C7: when the text contains at least one risk keyword and the hype-hit
count does not exceed the risk-hit count, the classifier labels it
"risk" with the red color — risk takes priority on tie-or-greater. -/
theorem classify_risk_priority (title text : String)
    (h1 : 1 ≤ AnalyzeSignal.riskHits title text)
    (h2 : AnalyzeSignal.hypeHits title text ≤ AnalyzeSignal.riskHits title text) :
    AnalyzeSignal.classify title text =
      (0.85, "risk", "🔴",
        "rule:risk hits=" ++ toString (AnalyzeSignal.riskHits title text)) := by
  unfold AnalyzeSignal.classify
  simp [h1, h2]

/-- Witness for C7: a title holding the risk keyword "exploit" and the
hype keyword "launch" (one hit each — a tie) classifies as risk/red. -/
theorem classify_risk_priority_witness :
    1 ≤ AnalyzeSignal.riskHits "Exploit at launch" "" ∧
    AnalyzeSignal.hypeHits "Exploit at launch" "" ≤
      AnalyzeSignal.riskHits "Exploit at launch" "" ∧
    AnalyzeSignal.classify "Exploit at launch" "" =
      (0.85, "risk", "🔴",
        "rule:risk hits=" ++ toString (AnalyzeSignal.riskHits "Exploit at launch" "")) :=
  ⟨by decide, by decide,
    classify_risk_priority "Exploit at launch" "" (by decide) (by decide)⟩

/-! ## Bittensor metrics saver (src/fetch_bittensor_metrics.py) -/

namespace BtMetrics

/-- A stored metrics signal row, restricted to the columns this module
reads or writes.  `ts` is UTC time in seconds: the stored ISO text and
SQLite's `datetime('now','-10 minutes')` compare in timestamp order, so
the TEXT comparison is modelled numerically with the cutoff `now - 600`. -/
structure MSig where
  ts : ℕ
  source : String
  origin : String
  title : String
  text : String
  url : String
  score : ℚ
  color : String
  label : String
deriving DecidableEq

/-- The dedup signature URL
`f"bt://metrics/netuid={netuid}/block={metrics.get('block','')}"`. -/
def metricUrl (netuid : ℕ) (block : Option ℕ) : String :=
  "bt://metrics/netuid=" ++ toString netuid ++ "/block=" ++
    (match block with
     | some b => toString b
     | none => "")

/-- `_insert_signal_row` for the fully-populated row this module builds:
every schema column it binds is present and non-None, so the defaults and
NOT-NULL backfill loops change nothing and the call is the
`INSERT OR IGNORE` against the `(source, url)` unique index. -/
def insertMetricRow (table : List MSig) (row : MSig) : List MSig :=
  if (row.source != "") && (row.url != "") &&
      table.any (fun s => s.source == row.source && s.url == row.url) then table
  else table ++ [row]

/-- `save_bittensor_metrics_sqlite`: skip when an identical dedup URL was
written within the last 10 minutes, else insert the metrics row.  (The
source performs the identical window check twice in a row; both have the
same outcome.)  The JSON dump of the metrics dict is the opaque `mtext`. -/
def save_bittensor_metrics (table : List MSig) (now netuid : ℕ)
    (block : Option ℕ) (mtext : String) : List MSig :=
  let url := metricUrl netuid block
  if table.any (fun s => s.url == url && decide (now - 600 ≤ s.ts)) then table
  else insertMetricRow table
    ⟨now, "bittensor", "bittensor",
      "Bittensor metrics (netuid=" ++ toString netuid ++ ")",
      mtext, url, 0.35, "neutral", "bittensor"⟩

end BtMetrics

/-- C8: if a signal with the identical metrics dedup URL was written
within the last 10 minutes, the metrics saver skips the insert and leaves
the signals table unchanged. -/
theorem metrics_dedup_window (table : List BtMetrics.MSig)
    (now netuid : ℕ) (block : Option ℕ) (mtext : String)
    (s : BtMetrics.MSig) (hs : s ∈ table)
    (hurl : s.url = BtMetrics.metricUrl netuid block)
    (hts : now - 600 ≤ s.ts) :
    BtMetrics.save_bittensor_metrics table now netuid block mtext = table := by
  have hhit : table.any
      (fun x => x.url == BtMetrics.metricUrl netuid block &&
        decide (now - 600 ≤ x.ts)) = true :=
    List.any_eq_true.mpr ⟨s, hs, by simp [hurl, hts]⟩
  simp only [BtMetrics.save_bittensor_metrics]
  rw [hhit]
  simp

/-- Concrete recent metrics row for the C8 witness. -/
def recentMetric : BtMetrics.MSig :=
  ⟨1000, "bittensor", "bittensor", "Bittensor metrics (netuid=1)",
    "...", BtMetrics.metricUrl 1 (some 5), 0.35, "neutral", "bittensor"⟩

/-- Witness for C8: the same (netuid, block) sampled five minutes later is
skipped. -/
theorem metrics_dedup_window_witness :
    recentMetric ∈ [recentMetric] ∧
    recentMetric.url = BtMetrics.metricUrl 1 (some 5) ∧
    1300 - 600 ≤ recentMetric.ts ∧
    BtMetrics.save_bittensor_metrics [recentMetric] 1300 1 (some 5) "..." =
      [recentMetric] :=
  ⟨List.mem_cons_self recentMetric [], rfl, by decide,
    metrics_dedup_window [recentMetric] 1300 1 (some 5) "..." recentMetric
      (List.mem_cons_self recentMetric []) rfl (by decide)⟩

/-! ## RSS fetcher insert path (src/fetch_rss.py) -/

namespace FetchRss

/-- The row `insert_signal` binds:
`INSERT INTO signals(ts, source, origin, title, text, url, score, color, label)`
with source "rss", score 0.35, color "⚪", label "neutral"; `tags` and
`rationale` are not bound and store NULL. -/
def rssRow (ts origin title text url : String) : StoredSig :=
  ⟨SqlVal.text ts, SqlVal.text "rss", SqlVal.text origin, SqlVal.text title,
    SqlVal.text text, SqlVal.text url, SqlVal.null, SqlVal.real 0.35,
    SqlVal.text "⚪", SqlVal.text "neutral", SqlVal.null⟩

/-- `insert_signal` of src/fetch_rss.py: a plain `INSERT` — no
`OR IGNORE`, no `except sqlite3.IntegrityError` — so a collision with the
v2 unique index on `(source, url)` raises, modelled as `Except.error`. -/
def insert_signal (table : List StoredSig) (ts origin title text url : String) :
    Except Unit (List StoredSig) :=
  let row := rssRow ts origin title text url
  if uniqueConflict table row then Except.error ()
  else Except.ok (table ++ [row])

end FetchRss

/-- C9 counterexample: the claim "every insert path treats a duplicate-key
violation as the expected already-seen outcome and never surfaces it as an
error" fails on `fetch_rss.insert_signal`.  The feed-level `rss_seen` hash
covers `url + "||" + title`, so the same URL under a changed title reaches
the INSERT and collides with the stored `(rss, url)` key, raising an
IntegrityError that aborts the run. -/
theorem rss_insert_duplicate_error :
    FetchRss.insert_signal
      [FetchRss.rssRow "2026-01-01T00:00:00+00:00" "Feed" "Title A"
        "body text long enough" "https://x/a"]
      "2026-01-02T00:00:00+00:00" "Feed" "Title B (updated)"
      "other body" "https://x/a" = Except.error () := rfl

/-- C9 amended: the Dedup/Upsert Layer's `save_signal` and the metrics
inserter absorb a duplicate key via `INSERT OR IGNORE`, and the Decision
Engine catches the IntegrityError of its action insert and continues —
in all three the duplicate is the already-seen no-op; `fetch_rss`'s
`insert_signal`, by contrast, propagates the error. -/
theorem duplicate_key_handling
    (t : List StoredSig) (r : Dict) (now : String)
    (acts : List EngAction) (a : ActionCand)
    (mt : List BtMetrics.MSig) (mrow : BtMetrics.MSig)
    (ts origin title text url : String)
    (h1 : uniqueConflict t (buildRow now r) = true)
    (h2 : acts.any
      (fun e => e.dk == dedup_key a.action_type a.signal_id a.url) = true)
    (h3 : ((mrow.source != "") && (mrow.url != "") &&
      mt.any (fun s => s.source == mrow.source && s.url == mrow.url)) = true)
    (h4 : uniqueConflict t (FetchRss.rssRow ts origin title text url) = true) :
    save_signal t now r = (t, 0) ∧
    insertAction now acts a = (acts, 0) ∧
    BtMetrics.insertMetricRow mt mrow = mt ∧
    FetchRss.insert_signal t ts origin title text url = Except.error () := by
  refine ⟨?_, ?_, ?_, ?_⟩
  · simp only [save_signal]
    rw [h1]
    simp
  · simp only [insertAction]
    rw [h2]
    simp
  · simp only [BtMetrics.insertMetricRow]
    rw [h3]
    simp
  · simp only [FetchRss.insert_signal]
    rw [h4]
    simp

/-- Candidate dict colliding with the stored rss row, for the C9 witness. -/
def c9dict : Dict :=
  [("source", PyVal.str "rss"), ("url", PyVal.str "https://x/a")]

/-- Table already holding the rss row for that URL. -/
def c9tbl : List StoredSig :=
  [FetchRss.rssRow "2026-01-01T00:00:00+00:00" "Feed" "Title A" "body" "https://x/a"]

/-- An action candidate whose dedup key is already stored. -/
def c9act : ActionCand := investigateFor redRow

/-- Actions table already holding that dedup key. -/
def c9acts : List EngAction := [mkEngAction "2026-01-01T00:00:00+00:00" c9act]

/-- Witness for the amended C9 at concrete duplicate inputs on all four
insert paths. -/
theorem duplicate_key_handling_witness :
    save_signal c9tbl "2026-01-02T00:00:00+00:00" c9dict = (c9tbl, 0) ∧
    insertAction "2026-01-02T00:00:00+00:00" c9acts c9act = (c9acts, 0) ∧
    BtMetrics.insertMetricRow [recentMetric] recentMetric = [recentMetric] ∧
    FetchRss.insert_signal c9tbl "2026-01-02T00:00:00+00:00" "Feed" "Title B"
      "other body" "https://x/a" = Except.error () :=
  duplicate_key_handling c9tbl c9dict "2026-01-02T00:00:00+00:00" c9acts c9act
    [recentMetric] recentMetric "2026-01-02T00:00:00+00:00" "Feed" "Title B"
    "other body" "https://x/a" (by decide) (by decide) (by decide) (by decide)

/-! ## Object Index Engine (src/oii_snapshot.py)

Timestamps are again modelled as ℕ (ISO text compares in timestamp
order); `since` is the 30-day cutoff and `since3` the 3-day cutoff, so
`since ≤ since3`.  The score std-deviation needs `math.sqrt`, so this
module's aggregates live in ℝ (and are noncomputable, exactly where the
source computes irrational values). -/

namespace Oii

/-- A row of `SELECT object, color, score, ts FROM signals` — the live
schema carries an `object` column.  `score` is `none` when `float()` would
fail on the stored value (NULL or junk). -/
structure OiiSig where
  object : Option String
  color : Option String
  score : Option ℚ
  ts : ℕ
deriving DecidableEq

/-- `WHITELIST` (a set; only membership matters). -/
def WHITELIST : List String := ["Akash", "Bittensor", "GAEA", "EigenLayer", "Render"]

/-- `to_float(x)`: the stored score, 0.0 when conversion fails. -/
def to_float : Option ℚ → ℚ
  | some q => q
  | none => 0

/-- `(r["object"] or "").strip()`. -/
def strippedObj (r : OiiSig) : String := pyStrip (r.object.getD "")

/-- The 30-day query:
`ts >= since AND COALESCE(object,'') != ''`. -/
def rows30 (since : ℕ) (sigs : List OiiSig) : List OiiSig :=
  sigs.filter (fun r => decide (since ≤ r.ts) && (r.object.getD "" != ""))

/-- The aggregation loop's `if obj not in WHITELIST: continue`. -/
def kept (since : ℕ) (sigs : List OiiSig) : List OiiSig :=
  (rows30 since sigs).filter (fun r => decide (strippedObj r ∈ WHITELIST))

/-- The keys of `total_cnt` (`defaultdict` key set; the model's `dedup`
keeps each object once — key order does not affect any property). -/
def objs (since : ℕ) (sigs : List OiiSig) : List String :=
  ((kept since sigs).map strippedObj).dedup

/-- `per_obj[obj]`'s scores. -/
def perObjScores (since : ℕ) (sigs : List OiiSig) (o : String) : List ℚ :=
  ((kept since sigs).filter (fun r => strippedObj r == o)).map
    (fun r => to_float r.score)

/-- `total_cnt[obj]`. -/
def nTotal (since : ℕ) (sigs : List OiiSig) (o : String) : ℕ :=
  (perObjScores since sigs o).length

/-- `risk_cnt[obj]`: rows whose color is the red emoji. -/
def nRisk (since : ℕ) (sigs : List OiiSig) (o : String) : ℕ :=
  ((kept since sigs).filter
    (fun r => strippedObj r == o && (r.color.getD "" == "🔴"))).length

/-- Mean of a score list (0 on the empty list, via ℚ division by zero). -/
def meanOf (l : List ℚ) : ℚ := l.sum / l.length

/-- Population variance of a score list. -/
def varOf (l : List ℚ) : ℚ :=
  ((l.map (fun v => (v - meanOf l) ^ 2)).sum) / l.length

/-- `vol[obj] = sqrt(var)` with the source's empty-list guard. -/
noncomputable def volOf (l : List ℚ) : ℝ :=
  if l = [] then 0 else Real.sqrt ((varOf l : ℚ) : ℝ)

/-- `vol[obj]` for one tracked object. -/
noncomputable def volR (since : ℕ) (sigs : List OiiSig) (o : String) : ℝ :=
  volOf (perObjScores since sigs o)

/-- `max_vol = max(vol.values()) if vol else 1.0; if max_vol == 0: 1.0`. -/
noncomputable def maxVol (since : ℕ) (sigs : List OiiSig) : ℝ :=
  match (objs since sigs).map (volR since sigs) with
  | [] => 1
  | v :: tl =>
    let m := tl.foldl max v
    if m = 0 then 1 else m

/-- The 3-day query `ts >= since3 AND COALESCE(object,'') != ''`. -/
def rows3 (since3 : ℕ) (sigs : List OiiSig) : List OiiSig :=
  sigs.filter (fun r => decide (since3 ≤ r.ts) && (r.object.getD "" != ""))

/-- The `GROUP BY object` groups of the 3-day query (raw, unstripped
object values). -/
def rawGroups (since3 : ℕ) (sigs : List OiiSig) : List (Option String) :=
  ((rows3 since3 sigs).map (fun r => r.object)).dedup

/-- `last3_cnt.get(obj, 0)`: the dict comprehension keys each group by
`strip(raw)`, so when several raw values strip to the same key the binding
written last wins — hence the count of the last matching raw group. -/
def last3Cnt (since3 : ℕ) (sigs : List OiiSig) (o : String) : ℕ :=
  match ((rawGroups since3 sigs).filter
      (fun R => pyStrip (R.getD "") == o)).getLast? with
  | none => 0
  | some R => ((rows3 since3 sigs).filter (fun r => r.object == R)).length

/-- `risk_share = (n_risk / n_total) if n_total else 0.0`. -/
noncomputable def riskShare (since : ℕ) (sigs : List OiiSig) (o : String) : ℝ :=
  if nTotal since sigs o = 0 then 0
  else (nRisk since sigs o : ℝ) / (nTotal since sigs o : ℝ)

/-- `vol_norm = vol.get(obj, 0.0) / max_vol`. -/
noncomputable def volNorm (since : ℕ) (sigs : List OiiSig) (o : String) : ℝ :=
  volR since sigs o / maxVol since sigs

/-- `recency = (last3_cnt.get(obj, 0) / n_total) if n_total else 0.0`. -/
noncomputable def recencyF (since since3 : ℕ) (sigs : List OiiSig) (o : String) : ℝ :=
  if nTotal since sigs o = 0 then 0
  else (last3Cnt since3 sigs o : ℝ) / (nTotal since sigs o : ℝ)

/-- `oii = W_RISK*risk_share + W_VOL*vol_norm + W_REC*recency` with the
weights 0.55 / 0.30 / 0.15. -/
noncomputable def oiiOf (since since3 : ℕ) (sigs : List OiiSig) (o : String) : ℝ :=
  0.55 * riskShare since sigs o + 0.30 * volNorm since sigs o +
    0.15 * recencyF since since3 sigs o

/-- One row of the `object_index` table (snapshot ts and window length
omitted: they are constants of the run). -/
structure OiiEntry where
  object : String
  n_total : ℕ
  risk_share : ℝ
  vol_norm : ℝ
  recency : ℝ
  oii : ℝ

/-- The `out.append(...)` tuple for one tracked object. -/
noncomputable def entryOf (since since3 : ℕ) (sigs : List OiiSig) (o : String) :
    OiiEntry :=
  ⟨o, nTotal since sigs o, riskShare since sigs o, volNorm since sigs o,
    recencyF since since3 sigs o, oiiOf since since3 sigs o⟩

/-- The list of `object_index` rows one run writes. -/
noncomputable def snapshot (since since3 : ℕ) (sigs : List OiiSig) :
    List OiiEntry :=
  (objs since sigs).map (entryOf since since3 sigs)

end Oii

namespace Oii

/-- The initial value is below a left max-fold. -/
theorem le_foldl_max_init (l : List ℝ) (v : ℝ) : v ≤ l.foldl max v := by
  induction l generalizing v with
  | nil => exact le_refl v
  | cons w ws ih => exact le_trans (le_max_left v w) (ih (max v w))

/-- Every member is below a left max-fold. -/
theorem le_foldl_max_mem (l : List ℝ) (v x : ℝ) (hx : x ∈ l) :
    x ≤ l.foldl max v := by
  induction l generalizing v with
  | nil => cases hx
  | cons w ws ih =>
    rw [List.foldl_cons]
    rcases List.mem_cons.mp hx with h | h
    · subst h
      exact le_trans (le_max_right v x) (le_foldl_max_init ws (max v x))
    · exact ih (max v w) h

/-- A standard deviation is nonnegative. -/
theorem volOf_nonneg (l : List ℚ) : 0 ≤ volOf l := by
  unfold volOf
  split
  · exact le_refl 0
  · exact Real.sqrt_nonneg _

/-- A tracked object has at least one in-window row and is whitelisted. -/
theorem mem_objs_pos (since : ℕ) (sigs : List OiiSig) (o : String)
    (ho : o ∈ objs since sigs) :
    0 < nTotal since sigs o ∧ o ∈ WHITELIST := by
  obtain ⟨r, hr, hro⟩ := List.mem_map.mp (List.mem_dedup.mp ho)
  constructor
  · unfold nTotal perObjScores
    rw [List.length_map]
    exact List.length_pos_of_mem
      (List.mem_filter.mpr ⟨hr, by simp [hro]⟩)
  · have hf := List.of_mem_filter hr
    rw [← hro]
    simpa using hf

/-- Red-colored rows are a sub-count of all rows of the object. -/
theorem nRisk_le_nTotal (since : ℕ) (sigs : List OiiSig) (o : String) :
    nRisk since sigs o ≤ nTotal since sigs o := by
  unfold nRisk nTotal perObjScores
  rw [List.length_map, ← List.countP_eq_length_filter, ← List.countP_eq_length_filter]
  refine List.countP_mono_left (fun r _ h => ?_)
  simp only [Bool.and_eq_true] at h
  exact h.1

/-- The 3-day count for a tracked object never exceeds its 30-day count:
the last raw group counted for the key is one raw object value, whose
3-day rows all lie in the 30-day whitelist window of the same key. -/
theorem last3Cnt_le_nTotal (since since3 : ℕ) (sigs : List OiiSig) (o : String)
    (hw : since ≤ since3) (hwl : o ∈ WHITELIST) :
    last3Cnt since3 sigs o ≤ nTotal since sigs o := by
  unfold last3Cnt
  cases hg : ((rawGroups since3 sigs).filter
      (fun R => pyStrip (R.getD "") == o)).getLast? with
  | none => exact Nat.zero_le _
  | some R =>
    have hx : R ∈ ((rawGroups since3 sigs).filter
        (fun R => pyStrip (R.getD "") == o)).getLast? := by rw [hg]; rfl
    obtain ⟨hne, hEq⟩ := List.mem_getLast?_eq_getLast hx
    have hRmem : R ∈ (rawGroups since3 sigs).filter
        (fun R => pyStrip (R.getD "") == o) := hEq ▸ List.getLast_mem hne
    have hstrip : pyStrip (R.getD "") = o := by
      simpa using List.of_mem_filter hRmem
    show ((rows3 since3 sigs).filter (fun r => r.object == R)).length ≤
      nTotal since sigs o
    unfold rows3 nTotal perObjScores kept rows30
    rw [List.length_map, ← List.countP_eq_length_filter,
      ← List.countP_eq_length_filter, List.countP_filter, List.countP_filter,
      List.countP_filter]
    refine List.countP_mono_left (fun r _ h => ?_)
    simp only [Bool.and_eq_true, beq_iff_eq, decide_eq_true_eq, bne_iff_ne,
      ne_eq] at h ⊢
    obtain ⟨hobj, hts, hnz⟩ := h
    have hso : strippedObj r = o := by
      unfold strippedObj
      rw [hobj]
      exact hstrip
    exact ⟨⟨hso, hso ▸ hwl⟩, le_trans hw hts, hnz⟩

end Oii

namespace Oii

/-- risk share lies in [0, 1]. -/
theorem riskShare_bounds (since : ℕ) (sigs : List OiiSig) (o : String) :
    0 ≤ riskShare since sigs o ∧ riskShare since sigs o ≤ 1 := by
  unfold riskShare
  split
  · exact ⟨le_refl 0, zero_le_one⟩
  · rename_i h0
    have hpos : (0 : ℝ) < (nTotal since sigs o : ℝ) := by
      exact_mod_cast Nat.pos_of_ne_zero h0
    refine ⟨div_nonneg (by positivity) hpos.le, (div_le_one hpos).mpr ?_⟩
    exact_mod_cast nRisk_le_nTotal since sigs o

/-- normalised volatility lies in [0, 1] for every tracked object. -/
theorem volNorm_bounds (since : ℕ) (sigs : List OiiSig) (o : String)
    (ho : o ∈ objs since sigs) :
    0 ≤ volNorm since sigs o ∧ volNorm since sigs o ≤ 1 := by
  have hmem : volR since sigs o ∈ (objs since sigs).map (volR since sigs) :=
    List.mem_map_of_mem _ ho
  have hv0 : 0 ≤ volR since sigs o := volOf_nonneg _
  unfold volNorm maxVol
  cases hL : (objs since sigs).map (volR since sigs) with
  | nil =>
    rw [hL] at hmem
    cases hmem
  | cons v tl =>
    rw [hL] at hmem
    have hvm : volR since sigs o ≤ tl.foldl max v := by
      rcases List.mem_cons.mp hmem with h | h
      · exact h ▸ le_foldl_max_init tl v
      · exact le_foldl_max_mem tl v _ h
    by_cases hm0 : tl.foldl max v = 0
    · have hz : volR since sigs o = 0 :=
        le_antisymm (hm0 ▸ hvm) hv0
      simp [hm0, hz]
    · have hmpos : 0 < tl.foldl max v :=
        lt_of_le_of_ne (le_trans hv0 hvm) (Ne.symm hm0)
      simp only [hm0, if_false]
      exact ⟨div_nonneg hv0 hmpos.le, (div_le_one hmpos).mpr hvm⟩

/-- recency lies in [0, 1] for every tracked object. -/
theorem recencyF_bounds (since since3 : ℕ) (sigs : List OiiSig) (o : String)
    (hw : since ≤ since3) (hwl : o ∈ WHITELIST) :
    0 ≤ recencyF since since3 sigs o ∧ recencyF since since3 sigs o ≤ 1 := by
  unfold recencyF
  split
  · exact ⟨le_refl 0, zero_le_one⟩
  · rename_i h0
    have hpos : (0 : ℝ) < (nTotal since sigs o : ℝ) := by
      exact_mod_cast Nat.pos_of_ne_zero h0
    refine ⟨div_nonneg (by positivity) hpos.le, (div_le_one hpos).mpr ?_⟩
    exact_mod_cast last3Cnt_le_nTotal since since3 sigs o hw hwl

end Oii

/-- C6: every object_index row written by a run has risk_share, vol_norm
and recency each in [0,1], and the composite
oii = 0.55*risk_share + 0.30*vol_norm + 0.15*recency also lies in [0,1]
(whatever the stored score distribution; the window cutoffs satisfy
`since ≤ since3`). -/
theorem oii_snapshot_bounded (since since3 : ℕ) (sigs : List Oii.OiiSig)
    (hw : since ≤ since3) (e : Oii.OiiEntry)
    (he : e ∈ Oii.snapshot since since3 sigs) :
    0 ≤ e.risk_share ∧ e.risk_share ≤ 1 ∧
    0 ≤ e.vol_norm ∧ e.vol_norm ≤ 1 ∧
    0 ≤ e.recency ∧ e.recency ≤ 1 ∧
    0 ≤ e.oii ∧ e.oii ≤ 1 := by
  obtain ⟨o, ho, rfl⟩ := List.mem_map.mp he
  obtain ⟨hpos, hwl⟩ := Oii.mem_objs_pos since sigs o ho
  obtain ⟨h1, h2⟩ := Oii.riskShare_bounds since sigs o
  obtain ⟨h3, h4⟩ := Oii.volNorm_bounds since sigs o ho
  obtain ⟨h5, h6⟩ := Oii.recencyF_bounds since since3 sigs o hw hwl
  simp only [Oii.entryOf, Oii.oiiOf]
  refine ⟨h1, h2, h3, h4, h5, h6, ?_, ?_⟩
  · positivity
  · nlinarith [h2, h4, h6]

/-- Concrete red Akash signal inside both windows, for the C6 witness. -/
def wOiiSig : Oii.OiiSig := ⟨some "Akash", some "🔴", some (1/2), 100⟩

/-- Witness for C6 on a one-signal run with cutoffs 50 (30-day) and 80
(3-day). -/
theorem oii_snapshot_bounded_witness :
    (50 : ℕ) ≤ 80 ∧
    (0 ≤ (Oii.entryOf 50 80 [wOiiSig] "Akash").risk_share ∧
      (Oii.entryOf 50 80 [wOiiSig] "Akash").risk_share ≤ 1 ∧
      0 ≤ (Oii.entryOf 50 80 [wOiiSig] "Akash").vol_norm ∧
      (Oii.entryOf 50 80 [wOiiSig] "Akash").vol_norm ≤ 1 ∧
      0 ≤ (Oii.entryOf 50 80 [wOiiSig] "Akash").recency ∧
      (Oii.entryOf 50 80 [wOiiSig] "Akash").recency ≤ 1 ∧
      0 ≤ (Oii.entryOf 50 80 [wOiiSig] "Akash").oii ∧
      (Oii.entryOf 50 80 [wOiiSig] "Akash").oii ≤ 1) := by
  have hobjs : Oii.objs 50 [wOiiSig] = ["Akash"] := by decide
  have hmem : Oii.entryOf 50 80 [wOiiSig] "Akash" ∈ Oii.snapshot 50 80 [wOiiSig] := by
    unfold Oii.snapshot
    rw [hobjs]
    exact List.mem_map_of_mem _ (List.mem_cons_self _ _)
  exact ⟨by norm_num, oii_snapshot_bounded 50 80 [wOiiSig] (by norm_num) _ hmem⟩
